import Mathlib

/- Verification of the concurrent streaming-response coordination core of the
panello_ai_service repository: lock coordination, streaming session lifecycle,
generation pipeline and moderator hand-off. Python sources are shallowly
embedded as executable Lean definitions; database tables are lists of rows,
and the Supabase RPC bodies that are not part of the checked sources are
modelled from the design document and marked as such. -/

set_option maxHeartbeats 1000000

namespace Panello

/-! ## Lock keys (src/services/lock_manager.py) -/

/-- `LockManager._get_lock_key` (src/services/lock_manager.py:27-29):
the Python f-string `f"{room_id}:{thread_id}"`. -/
def get_lock_key (room_id thread_id : String) : String :=
  room_id ++ ":" ++ thread_id

/-! ## Messages and chat history (src/services/chat_orchestrator.py) -/

/-- A row of the `messages` table, with the columns the orchestrators read.
`sender_type`: 1 = user, 2 = ai. `created_at` is a timestamp; a larger value
is a more recent message. -/
structure Message where
  id : String
  room_id : String
  thread_id : String
  content : String
  sender_type : Nat
  created_at : Nat
  response_to_message : Option String := none
deriving Repr, DecidableEq

/-- One insertion step of sorting by `created_at` descending, embedding the
query clause `.order('created_at', desc=True)`. -/
def insertDesc (m : Message) : List Message → List Message
  | [] => [m]
  | x :: xs => if x.created_at ≤ m.created_at then m :: x :: xs else x :: insertDesc m xs

/-- Sort a message list by `created_at` descending (most recent first). -/
def sortDesc : List Message → List Message
  | [] => []
  | m :: ms => insertDesc m (sortDesc ms)

/-- `ChatOrchestrator._get_chat_history` (src/services/chat_orchestrator.py:36-49):
filter the `messages` table by `room_id` and `thread_id`, order by `created_at`
descending, and keep at most `limit` rows (the callers use the default 10). -/
def get_chat_history (db : List Message) (room_id thread_id : String)
    (limit : Nat := 10) : List Message :=
  (sortDesc (db.filter (fun m => m.room_id == room_id && m.thread_id == thread_id))).take limit

/-- The sender label used by `_format_chat_history`: "User" for
`sender_type == 1`, else the AI display name. -/
def sender_label (ai_name : String) (m : Message) : String :=
  if m.sender_type = 1 then "User" else ai_name

/-- One line of the formatted history: `f"{sender_name}: {msg['content']}\n"`. -/
def history_line (ai_name : String) (m : Message) : String :=
  sender_label ai_name m ++ ": " ++ m.content ++ "\n"

/-- `ChatOrchestrator._format_chat_history` (src/services/chat_orchestrator.py:51-66):
"No previous messages" for an empty list, else the lines of `reversed(messages)`
accumulated with `+=`. -/
def format_chat_history (messages : List Message) (ai_name : String) : String :=
  if messages = [] then "No previous messages"
  else messages.reverse.foldl (fun acc m => acc ++ history_line ai_name m) ""

/-! ## Streaming sessions (src/services/chat_orchestrator.py, qa_orchestrator.py) -/

/-- A row of the `streaming_messages` table. `id` is the session id handed
back by the upsert RPC; ids are allocated from `SessionStore.next_id`. -/
structure StreamingSession where
  id : Nat
  room_id : String
  thread_id : String
  ai_id : String
  user_message_id : String
  content : String
  is_complete : Bool
deriving Repr, DecidableEq

/-- The `streaming_messages` table plus the id allocator of the store. -/
structure SessionStore where
  sessions : List StreamingSession
  next_id : Nat
deriving Repr, DecidableEq

/-- Modelled from the spec: the Supabase RPC `upsert_streaming_message`
(invoked at src/services/chat_orchestrator.py:180-198; its SQL body is not
under src/). Spec 4.2: "append(session_id, cumulative_content, complete=false):
upsert by session id; ... last write wins" and "initialize ... creates an
empty, incomplete session". With no session id a fresh row is inserted and its
new id returned; with a session id that row's content and completion flag are
overwritten. -/
def upsert_streaming_message (st : SessionStore) (streaming_id : Option Nat)
    (room_id thread_id ai_id user_message_id content : String)
    (is_complete : Bool) : SessionStore × Nat :=
  match streaming_id with
  | none =>
      ({ sessions := st.sessions ++
            [⟨st.next_id, room_id, thread_id, ai_id, user_message_id, content, is_complete⟩],
         next_id := st.next_id + 1 }, st.next_id)
  | some sid =>
      ({ st with sessions := st.sessions.map (fun s =>
            if s.id = sid then { s with content := content, is_complete := is_complete } else s) },
       sid)

/-- Modelled from the spec: the Supabase RPC `complete_streaming_message`
(invoked at src/services/chat_orchestrator.py:200-212; its SQL body is not
under src/). Spec 4.2: "finalize(session_id): sets completion flag,
materializes a permanent Message ... Idempotent." Only the completion flag of
the session row is modelled here. -/
def complete_streaming_message (st : SessionStore) (sid : Nat) : SessionStore :=
  { st with sessions := st.sessions.map (fun s =>
      if s.id = sid then { s with is_complete := true } else s) }

/-- Whether a session row is an incomplete row of the given (room, thread)
pair — the filter of the cleanup query
(`.eq('room_id', ...).eq('thread_id', ...).eq('is_complete', False)`). -/
def is_incomplete_for (room_id thread_id : String) (s : StreamingSession) : Bool :=
  s.room_id == room_id && s.thread_id == thread_id && !s.is_complete

/-- The ids selected by the cleanup query
(src/services/chat_orchestrator.py:274-279). -/
def incomplete_ids (st : SessionStore) (room_id thread_id : String) : List Nat :=
  (st.sessions.filter (is_incomplete_for room_id thread_id)).map (·.id)

/-- `ChatOrchestrator.cleanup_incomplete_streaming_messages`
(src/services/chat_orchestrator.py:270-286): select the ids of every
incomplete session of the pair, then complete each one in turn. -/
def cleanup_incomplete_streaming_messages (st : SessionStore)
    (room_id thread_id : String) : SessionStore :=
  (incomplete_ids st room_id thread_id).foldl complete_streaming_message st

/-- `ChatOrchestrator.initialize_streaming_message`
(src/services/chat_orchestrator.py:288-311): cleanup of incomplete sessions
for the pair, then creation of a fresh empty incomplete session whose id is
returned. -/
def init_streaming_message (st : SessionStore)
    (room_id thread_id ai_id user_message_id : String) : SessionStore × Nat :=
  upsert_streaming_message (cleanup_incomplete_streaming_messages st room_id thread_id)
    none room_id thread_id ai_id user_message_id "" false

/-- The number of incomplete sessions of a (room, thread) pair in the store. -/
def count_incomplete (st : SessionStore) (room_id thread_id : String) : Nat :=
  (st.sessions.filter (is_incomplete_for room_id thread_id)).length

/-! ## The in-memory lock manager as a transition system
(src/services/lock_manager.py:17-111)

`acquire_lock` runs on the asyncio event loop: code between two `await`
points is one atomic segment. A caller's progress through `acquire_lock` is
its phase: `idle` (not inside an acquire), `waiting key` (passed the
fast-path membership check, suspended in `_get_lock` / `lock.acquire()`),
`holding key` (acquired the asyncio.Lock and added the key to
`_active_requests`), and `conflicted` (a ConflictException was raised). -/

/-- The phase of one caller of `LockManager.acquire_lock`. -/
inductive CallerPhase
  | idle
  | waiting (key : String)
  | holding (key : String)
  | conflicted
deriving Repr, DecidableEq

/-- The shared state of the lock manager together with every caller's phase:
`active` is `LockManager._active_requests`, `holder` records which caller
currently owns the underlying `asyncio.Lock` of each key. -/
structure LMState where
  active : List String
  holder : String → Option Nat
  phase : Nat → CallerPhase

/-- The initial state: no active requests, no lock held, every caller idle. -/
def lmInit : LMState :=
  { active := [], holder := fun _ => none, phase := fun _ => CallerPhase.idle }

/-- One atomic segment of `LockManager.acquire_lock` or of its exit path
(src/services/lock_manager.py:55-111):
fast_conflict = line 75-76 (key already in `_active_requests`, raise);
fast_pass = line 75 check passes, caller suspends towards `lock.acquire()`;
lock_acquire = `wait_for(lock.acquire(), 0.1)` returns and line 89 adds the
key (no `await` between, hence one step) — enabled only when nobody holds the
asyncio.Lock; lock_timeout = line 85-86 TimeoutError converted to
ConflictException; lock_release = the `finally` block, lines 98-99;
conflict_done = the raised ConflictException has propagated to the caller. -/
inductive LMStep : LMState → LMState → Prop
  | fast_conflict (s : LMState) (c : Nat) (k : String) :
      s.phase c = CallerPhase.idle → k ∈ s.active →
      LMStep s { s with phase := fun x => if x = c then CallerPhase.conflicted else s.phase x }
  | fast_pass (s : LMState) (c : Nat) (k : String) :
      s.phase c = CallerPhase.idle → k ∉ s.active →
      LMStep s { s with phase := fun x => if x = c then CallerPhase.waiting k else s.phase x }
  | lock_acquire (s : LMState) (c : Nat) (k : String) :
      s.phase c = CallerPhase.waiting k → s.holder k = none →
      LMStep s { active := k :: s.active,
                 holder := fun y => if y = k then some c else s.holder y,
                 phase := fun x => if x = c then CallerPhase.holding k else s.phase x }
  | lock_timeout (s : LMState) (c : Nat) (k : String) :
      s.phase c = CallerPhase.waiting k →
      LMStep s { s with phase := fun x => if x = c then CallerPhase.conflicted else s.phase x }
  | lock_release (s : LMState) (c : Nat) (k : String) :
      s.phase c = CallerPhase.holding k →
      LMStep s { active := s.active.erase k,
                 holder := fun y => if y = k then none else s.holder y,
                 phase := fun x => if x = c then CallerPhase.idle else s.phase x }
  | conflict_done (s : LMState) (c : Nat) :
      s.phase c = CallerPhase.conflicted →
      LMStep s { s with phase := fun x => if x = c then CallerPhase.idle else s.phase x }

/-- States reachable from the initial lock-manager state by interleaving
atomic segments of any number of concurrent callers. -/
inductive LMReach : LMState → Prop
  | init : LMReach lmInit
  | step {s s' : LMState} : LMReach s → LMStep s s' → LMReach s'

/-- The inductive invariant of the lock manager: holding a key and owning its
asyncio.Lock coincide, every owned key is in `_active_requests` and vice
versa, and `_active_requests` has no duplicates. -/
def LMInv (s : LMState) : Prop :=
  (∀ c k, s.phase c = CallerPhase.holding k → s.holder k = some c) ∧
  (∀ c k, s.holder k = some c → s.phase c = CallerPhase.holding k) ∧
  (∀ k c, s.holder k = some c → k ∈ s.active) ∧
  (∀ k, k ∈ s.active → s.holder k ≠ none) ∧
  s.active.Nodup

/-- A state in which caller 0 has completed `acquire_lock` for key "a:b":
caller 0 passed the fast path. -/
def lmS1 : LMState :=
  { lmInit with phase := fun x => if x = 0 then CallerPhase.waiting "a:b" else lmInit.phase x }

/-- Caller 0 then acquired the asyncio.Lock and registered the key. -/
def lmS2 : LMState :=
  { active := "a:b" :: lmS1.active,
    holder := fun y => if y = "a:b" then some 0 else lmS1.holder y,
    phase := fun x => if x = 0 then CallerPhase.holding "a:b" else lmS1.phase x }

/-! ## The TTL-bounded database thread lock (spec 4.1)

src/routers/qa.py (lines 70, 95, 119, 140) and
src/services/qa_orchestrator.py (line 192) call
`lock_manager.check_thread_lock`, `lock_manager.transition_to_ai_lock` and
`lock_manager.release_thread_lock`, but the version of
src/services/lock_manager.py in the tree defines none of them: only the
callers of the TTL-bounded database lock are under src/, not its
implementation. The operations below are therefore modelled from the spec. -/

/-- The two lock kinds of a ThreadLock (spec 3: `user_message` | `ai_streaming`). -/
inductive LockKind
  | user_message
  | ai_streaming
deriving Repr, DecidableEq

/-- Modelled from the spec: a ThreadLock row (spec 3): holder id, lock kind,
acquired-at, TTL, computed expiry. -/
structure ThreadLock where
  holder_id : String
  kind : LockKind
  acquired_at : Nat
  ttl : Nat
deriving Repr, DecidableEq

/-- The computed expiry instant of a ThreadLock (spec 3). -/
def ThreadLock.expiry (l : ThreadLock) : Nat := l.acquired_at + l.ttl

/-- The lock table: at most one row per thread id, keyed by thread id. -/
def LockTable : Type := List (String × ThreadLock)

/-- Store a lock row for a thread, replacing any existing row of that thread. -/
def set_lock (tbl : LockTable) (thread_id : String) (l : ThreadLock) : LockTable :=
  (thread_id, l) :: List.filter (fun p => p.1 != thread_id) tbl

/-- Modelled from the spec: `acquire_or_transition(thread_id, holder_id, kind,
ttl) -> success|Conflict` (spec 4.1), the operation behind
`transition_to_ai_lock` in src/routers/qa.py:95, whose implementation is not
under src/. Rules, in order: (1) no lock or TTL expired at `now` → create a
new lock; (2) same holder → refresh; (3) kind `user_message` upgraded to a
requested `ai_streaming` when the new holder answers that user's message
(side condition abstracted as `upgrade_allowed`); (4) otherwise Conflict
(`none`). -/
def acquire_or_transition (tbl : LockTable) (now : Nat) (thread_id holder_id : String)
    (kind : LockKind) (ttl : Nat) (upgrade_allowed : Bool) : Option LockTable :=
  match List.lookup thread_id tbl with
  | none => some (set_lock tbl thread_id ⟨holder_id, kind, now, ttl⟩)
  | some l =>
    if l.expiry ≤ now then
      some (set_lock tbl thread_id ⟨holder_id, kind, now, ttl⟩)
    else if l.holder_id = holder_id then
      some (set_lock tbl thread_id ⟨holder_id, kind, now, ttl⟩)
    else if l.kind = LockKind.user_message ∧ kind = LockKind.ai_streaming ∧ upgrade_allowed then
      some (set_lock tbl thread_id ⟨holder_id, kind, now, ttl⟩)
    else
      none

/-- Remove a thread's lock row altogether (how an absent lock looks). -/
def drop_lock (tbl : LockTable) (thread_id : String) : LockTable :=
  List.filter (fun p => p.1 != thread_id) tbl

/-! ## Agents, rooms and the moderator hand-off
(src/services/chat_orchestrator.py:214-268, 441-476;
src/services/qa_orchestrator.py:499-542) -/

/-- The moderator constant of src/services/chat_orchestrator.py:20. -/
def MODERATOR_AI_ID : String := "10000000-0000-0000-0000-000000000007"

/-- A row of the `ai` table, with the columns the orchestrators read. -/
structure AIRow where
  id : String
  name : String
  description : String
  personality : String
  is_active : Bool
  is_moderator : Bool
deriving Repr, DecidableEq

/-- A row of the `room_ai` table. -/
structure RoomAIRow where
  room_id : String
  ai_id : String
  is_active : Bool
deriving Repr, DecidableEq

/-- The read-only database environment of a run: the `ai` and `room_ai`
tables. -/
structure DBEnv where
  ai : List AIRow
  room_ai : List RoomAIRow
deriving Repr, DecidableEq

/-- A match of the regex `\*\*([^*]+)\*\*` anchored at the start of the
character list: two asterisks, one or more non-asterisk characters (the
group), two asterisks. -/
def bold_at (cs : List Char) : Option (List Char) :=
  match cs with
  | '*' :: '*' :: rest =>
      match rest.takeWhile (fun c => c != '*'), rest.dropWhile (fun c => c != '*') with
      | [], _ => none
      | g, '*' :: '*' :: _ => some g
      | _, _ => none
  | _ => none

/-- The group of the first match of `\*\*([^*]+)\*\*`, scanning left to
right as `re.findall` does. -/
def bold_scan : List Char → Option (List Char)
  | [] => none
  | c :: cs =>
      match bold_at (c :: cs) with
      | some g => some g
      | none => bold_scan cs

/-- Python `str.strip()` on a character list: drop leading and trailing
whitespace. -/
def strip_chars (cs : List Char) : List Char :=
  ((cs.dropWhile Char.isWhitespace).reverse.dropWhile Char.isWhitespace).reverse

/-- Python `str.lower()`: lower-case every character. -/
def lower_str (s : String) : String :=
  String.mk (s.data.map Char.toLower)

/-- `ChatOrchestrator._extract_ai_name_from_moderator_response`
(src/services/chat_orchestrator.py:214-231): the first regex match of
`\*\*([^*]+)\*\*` in the response, stripped of surrounding whitespace. -/
def extract_ai_name_from_moderator_response (response : String) : Option String :=
  (bold_scan response.data).map (fun g => String.mk (strip_chars g))

/-- The active AI ids of a room — the `room_ai` query of
`_get_ai_id_by_name` (src/services/chat_orchestrator.py:236-247). The
moderator is NOT filtered out here. -/
def room_active_ai_ids (env : DBEnv) (room_id : String) : List String :=
  (env.room_ai.filter (fun ra => ra.room_id == room_id && ra.is_active)).map (·.ai_id)

/-- `ChatOrchestrator._get_ai_id_by_name`
(src/services/chat_orchestrator.py:233-268): no active room AIs → none,
else the first active AI of the room whose name matches case-insensitively. -/
def get_ai_id_by_name (env : DBEnv) (ai_name room_id : String) : Option String :=
  let ai_ids := room_active_ai_ids env room_id
  if ai_ids = [] then none
  else
    ((env.ai.filter (fun a => ai_ids.contains a.id && a.is_active)).find?
        (fun a => lower_str a.name == lower_str ai_name)).map (·.id)

/-- The hand-off decision at the end of
`ChatOrchestrator.process_streaming_response`
(src/services/chat_orchestrator.py:441-476): given the completed pass's agent
and its finalized content, the target agent id of the chained pass spawned by
`asyncio.create_task`, if any. The guard is
`if ai_id == MODERATOR_AI_ID and full_response:` — Python truthiness of a
string is non-emptiness. -/
def chat_next_pass (env : DBEnv) (room_id ai_id full_response : String) : Option String :=
  if ai_id = MODERATOR_AI_ID ∧ full_response ≠ "" then
    match extract_ai_name_from_moderator_response full_response with
    | some nm => get_ai_id_by_name env nm room_id
    | none => none
  else none

/-- The chaining behaviour of one whole generation pass: agent `ai_id`
completes with content `output ai_id`, and the spawned chained pass's target
is the hand-off decision on that content. -/
def chat_pass_target (env : DBEnv) (room_id : String) (output : String → String)
    (ai_id : String) : Option String :=
  chat_next_pass env room_id ai_id (output ai_id)

/-! ## The QA pipeline (src/services/qa_orchestrator.py) -/

/-- `QAOrchestrator._get_ai_info` (src/services/qa_orchestrator.py:34-41):
the single `ai` row with the given id. -/
def qa_get_ai_info (env : DBEnv) (ai_id : String) : Option AIRow :=
  env.ai.find? (fun a => a.id == ai_id)

/-- One parsed line of the professional-stream response body
(src/services/qa_orchestrator.py:299-325): a chunk with status `answering`,
or the `complete` status that breaks the loop. -/
inductive StreamEvent
  | answering (chunk : String)
  | complete_status
deriving Repr, DecidableEq

/-- The read loop of `_call_professional_stream`
(src/services/qa_orchestrator.py:299-325): each `answering` chunk is appended
to the running text, which is then upserted (incomplete) as the session's
cumulative content; a `complete` line breaks the loop. -/
def qa_stream_loop (st : SessionStore) (sid : Nat)
    (room_id thread_id ai_id user_message_id full : String) :
    List StreamEvent → SessionStore × String
  | [] => (st, full)
  | StreamEvent.complete_status :: _ => (st, full)
  | StreamEvent.answering c :: rest =>
      qa_stream_loop
        (upsert_streaming_message st (some sid) room_id thread_id ai_id user_message_id
          (full ++ c) false).1
        sid room_id thread_id ai_id user_message_id (full ++ c) rest

/-- `QAOrchestrator._call_professional_stream`
(src/services/qa_orchestrator.py:276-337). `ok`: the HTTP status was 200 —
otherwise the read loop never runs and the empty accumulated text is
returned. `events`: the stream lines handled before the call ends or raises.
`err = some m`: an exception was raised after those events; it is caught by
the function's own `except` (line 335-337) and `"Error: " ++ m` is RETURNED,
with no further write to the session. -/
def call_professional_stream (st : SessionStore) (sid : Nat)
    (room_id thread_id ai_id user_message_id : String)
    (ok : Bool) (events : List StreamEvent) (err : Option String) :
    SessionStore × String :=
  if ok then
    let r := qa_stream_loop st sid room_id thread_id ai_id user_message_id "" events
    match err with
    | some m => (r.1, "Error: " ++ m)
    | none => r
  else (st, "")

/-- An externally visible action of the completion tail of
`QAOrchestrator.process_streaming_response`, in program order. -/
inductive QAEvent
  | finalize_ev (sid : Nat)
  | release_ev (thread_id ai_id : String)
  | upsert_err_ev (sid : Nat)
  | spawn_ev (ai_id : String) (sid : Nat)
deriving Repr, DecidableEq

/-- The outcome of (the modelled tail of) one QA pipeline run. -/
structure QARunResult where
  store : SessionStore
  trace : List QAEvent
  spawned : Option (String × Nat)
deriving Repr, DecidableEq

/-- The completion tail of `QAOrchestrator.process_streaming_response`
(src/services/qa_orchestrator.py:499-566), entered once `full_response` is
settled: line 500 completes the streaming message, line 505 releases the
thread lock (its own try/except swallows errors), lines 510-542 run the
hand-off check. `handoff_err = some m` models an exception raised inside the
hand-off block, caught by the outer `except` (lines 544-566), which upserts
`"Error: " ++ m` as completed content and releases the lock again. The
hand-off fires for a moderator pass whose `moderator_selected_ai_id` is
truthy and names an existing AI: a fresh streaming message is created for it
and a background task spawned. -/
def qa_completion_tail (st : SessionStore) (sid : Nat)
    (room_id thread_id ai_id user_message_id : String)
    (is_mod : Bool) (selected : Option String) (env : DBEnv)
    (handoff_err : Option String) : QARunResult :=
  let st1 := complete_streaming_message st sid
  let tr1 := [QAEvent.finalize_ev sid, QAEvent.release_ev thread_id ai_id]
  match handoff_err with
  | some m =>
      ⟨(upsert_streaming_message st1 (some sid) room_id thread_id ai_id user_message_id
          ("Error: " ++ m) true).1,
       tr1 ++ [QAEvent.upsert_err_ev sid, QAEvent.release_ev thread_id ai_id], none⟩
  | none =>
      match selected with
      | some x =>
          if is_mod ∧ x ≠ "" then
            match qa_get_ai_info env x with
            | some _ =>
                let r := init_streaming_message st1 room_id thread_id x user_message_id
                ⟨r.1, tr1 ++ [QAEvent.spawn_ev x r.2], some (x, r.2)⟩
            | none => ⟨st1, tr1, none⟩
          else ⟨st1, tr1, none⟩
      | none => ⟨st1, tr1, none⟩

/-- The moderator branch of `QAOrchestrator.process_streaming_response`
(src/services/qa_orchestrator.py:418-482) followed by the completion tail.
`sync_result` is what `_call_professional_sync` returned (falsy → the
fallback error text, line 431-432). `parsed` is the outcome of the Python
stdlib `json.loads` on the stripped response plus `.get('message','')` and
`.get('ai_id')` (lines 434-450), modelled as a parameter: `none` =
JSONDecodeError (line 470: the raw response is saved as completed content and
no AI is selected), `some (message_content, selected_ai_id)` otherwise (line
454-468: only the message content is saved, incomplete). -/
def qa_run_moderator (st : SessionStore) (sid : Nat)
    (room_id thread_id ai_id user_message_id : String) (env : DBEnv)
    (sync_result : Option String) (parsed : Option (String × Option String))
    (handoff_err : Option String) : QARunResult :=
  let full_response :=
    match sync_result with
    | none => "Error: Failed to get response from moderator"
    | some s => if s = "" then "Error: Failed to get response from moderator" else s
  match parsed with
  | some p =>
      qa_completion_tail
        (upsert_streaming_message st (some sid) room_id thread_id ai_id user_message_id
          p.1 false).1
        sid room_id thread_id ai_id user_message_id true p.2 env handoff_err
  | none =>
      qa_completion_tail
        (upsert_streaming_message st (some sid) room_id thread_id ai_id user_message_id
          full_response true).1
        sid room_id thread_id ai_id user_message_id true none env handoff_err

/-- The non-moderator branch of `QAOrchestrator.process_streaming_response`
(src/services/qa_orchestrator.py:483-497): `_call_professional_stream`, with
`moderator_selected_ai_id = None`, followed by the completion tail. -/
def qa_run_normal (st : SessionStore) (sid : Nat)
    (room_id thread_id ai_id user_message_id : String) (env : DBEnv)
    (ok : Bool) (events : List StreamEvent) (err : Option String)
    (handoff_err : Option String) : QARunResult :=
  qa_completion_tail
    (call_professional_stream st sid room_id thread_id ai_id user_message_id ok events err).1
    sid room_id thread_id ai_id user_message_id false none env handoff_err

/-- `QAOrchestrator.process_streaming_response` from the `ai_info` lookup on
(src/services/qa_orchestrator.py:344-566): AI not found → the early error
return (line 346-357, no run); else the moderator or the normal branch
according to the row's `is_moderator` flag (line 417). -/
def qa_run (st : SessionStore) (sid : Nat)
    (room_id thread_id ai_id user_message_id : String) (env : DBEnv)
    (sync_result : Option String) (parsed : Option (String × Option String))
    (ok : Bool) (events : List StreamEvent) (err : Option String)
    (handoff_err : Option String) : Option QARunResult :=
  match qa_get_ai_info env ai_id with
  | none => none
  | some info =>
      if info.is_moderator then
        some (qa_run_moderator st sid room_id thread_id ai_id user_message_id env
          sync_result parsed handoff_err)
      else
        some (qa_run_normal st sid room_id thread_id ai_id user_message_id env
          ok events err handoff_err)

/-! ## The chat pipeline background run
(src/services/chat_orchestrator.py:313-493) -/

/-- The streaming loop of `ChatOrchestrator.process_streaming_response`
(src/services/chat_orchestrator.py:420-434): each chunk is appended to the
running text, which is upserted (incomplete) as the session's cumulative
content. -/
def chat_stream_loop (st : SessionStore) (sid : Nat)
    (room_id thread_id ai_id user_message_id full : String) :
    List String → SessionStore × String
  | [] => (st, full)
  | c :: rest =>
      chat_stream_loop
        (upsert_streaming_message st (some sid) room_id thread_id ai_id user_message_id
          (full ++ c) false).1
        sid room_id thread_id ai_id user_message_id (full ++ c) rest

/-- `ChatOrchestrator.process_streaming_response` from the streaming loop on
(src/services/chat_orchestrator.py:419-493): the chunks are streamed into the
session; `err = some m` models an exception raised by the backend during
`chain.astream`, reaching the outer `except` (lines 478-493), which upserts
`"Error: " ++ m` as completed content. On success the session is completed
and the moderator hand-off check runs, spawning at most one chained pass. The
second component is the spawned chained pass (target, new session id), if
any. -/
def chat_process_run (st : SessionStore) (sid : Nat)
    (room_id thread_id ai_id user_message_id : String) (env : DBEnv)
    (chunks : List String) (err : Option String) :
    SessionStore × Option (String × Nat) :=
  let r := chat_stream_loop st sid room_id thread_id ai_id user_message_id "" chunks
  match err with
  | some m =>
      ((upsert_streaming_message r.1 (some sid) room_id thread_id ai_id user_message_id
          ("Error: " ++ m) true).1, none)
  | none =>
      let st1 := complete_streaming_message r.1 sid
      match chat_next_pass env room_id ai_id r.2 with
      | some target =>
          let r2 := init_streaming_message st1 room_id thread_id target user_message_id
          (r2.1, some (target, r2.2))
      | none => (st1, none)

/-- The database environment of the C2 counterexample: one room "r" whose
only active AI row is the moderator itself (the moderator prompt builder
excludes it from the roster it advertises, but `_get_ai_id_by_name` does
not). -/
def c2env : DBEnv :=
  { ai := [⟨MODERATOR_AI_ID, "Mod", "", "", true, true⟩],
    room_ai := [⟨"r", MODERATOR_AI_ID, true⟩] }

/-- A moderator response in the exact format its prompt mandates, but naming
the moderator's own display name. -/
def c2resp : String := "Forward to AI mentor: **Mod**. Reason is test"

/-- A database environment with one non-moderator specialist, for witnesses. -/
def cNenv : DBEnv :=
  { ai := [⟨"X", "Specialist", "", "", true, false⟩],
    room_ai := [⟨"r", "X", true⟩] }

/-- A store holding one incomplete session (id 0) about to be processed. -/
def c4st : SessionStore :=
  { sessions := [⟨0, "r", "t", "a", "u", "", false⟩], next_id := 1 }

/-- An empty database environment. -/
def c4env : DBEnv := { ai := [], room_ai := [] }

/-- The environment of the C7 counterexample: moderator "m" and specialist
"X" active in room "r". -/
def c7env : DBEnv :=
  { ai := [⟨"m", "Mod", "", "", true, true⟩, ⟨"X", "Specialist", "", "", true, false⟩],
    room_ai := [⟨"r", "m", true⟩, ⟨"r", "X", true⟩] }

/-- A store holding the moderator's incomplete session (id 0). -/
def c7st : SessionStore :=
  { sessions := [⟨0, "r", "t", "m", "u", "", false⟩], next_id := 1 }

/-! ## The chat HTTP flow (src/routers/chat.py) -/

/-- A lock action of the chat request flow, in program order. -/
inductive ChatEvent
  | acquire_ev (key : String)
  | conflict_ev (key : String)
  | release_lock_ev (key : String)
  | bg_start_ev
deriving Repr, DecidableEq

/-- `_process_with_lock_protection` (src/routers/chat.py:115-148): the
background task reacquires the lock for the same key on its own. If that
raises ConflictException (the key is in the active set `bg_active` at that
later time), the handler marks the already-initialized streaming message as
failed with the fixed text "Error: Processing was interrupted due to lock
conflict" instead of processing. Otherwise `process_streaming_response` runs
under the lock, which the context manager then releases. -/
def process_with_lock_protection (bg_active : List String) (st : SessionStore)
    (room_id thread_id ai_id user_message_id : String) (sid : Nat) (env : DBEnv)
    (chunks : List String) (err : Option String) :
    SessionStore × List ChatEvent :=
  let key := get_lock_key room_id thread_id
  if key ∈ bg_active then
    ((upsert_streaming_message st (some sid) room_id thread_id ai_id user_message_id
        "Error: Processing was interrupted due to lock conflict" true).1,
     [ChatEvent.conflict_ev key])
  else
    ((chat_process_run st sid room_id thread_id ai_id user_message_id env chunks err).1,
     [ChatEvent.acquire_ev key, ChatEvent.release_lock_ev key])

/-- `chat_stream` (src/routers/chat.py:35-112) followed by the background
task. The handler: pre-check / lock acquisition (conflict → `none`, the 409
response), initialization of the streaming message inside the `async with`
block, registration of the background task, then — when the context exits as
the handler returns — release of the lock. Only afterwards does FastAPI run
the registered task, which reacquires independently; `bg_active` is the
active-key set at that later instant (other requests may have intervened).
Result: final store, the handler's streaming_message_id, and the combined
event trace. -/
def chat_stream_flow (active0 : List String) (st : SessionStore)
    (room_id thread_id ai_id user_message_id : String) (env : DBEnv)
    (bg_active : List String) (chunks : List String) (err : Option String) :
    Option (SessionStore × Nat × List ChatEvent) :=
  let key := get_lock_key room_id thread_id
  if key ∈ active0 then none
  else
    let r := init_streaming_message st room_id thread_id ai_id user_message_id
    let bg := process_with_lock_protection bg_active r.1 room_id thread_id ai_id
                user_message_id r.2 env chunks err
    some (bg.1, r.2,
      [ChatEvent.acquire_ev key, ChatEvent.release_lock_ev key, ChatEvent.bg_start_ev] ++ bg.2)

end Panello

namespace Panello

/-! ## Theorems: lock key (C9) -/

/-- C9: `_get_lock_key` is not injective on (room_id, thread_id) pairs —
the distinct pairs ("a:b", "c") and ("a", "b:c") produce the same lock key,
so locking and conflict detection conflate distinct room/thread pairs. -/
theorem C9_lock_key_collision :
    get_lock_key "a:b" "c" = get_lock_key "a" "b:c" ∧
    ("a:b", "c") ≠ (("a", "b:c") : String × String) := by
  refine ⟨rfl, ?_⟩
  decide

/-! ## Theorems: chat history (C8) -/

theorem mem_insertDesc {m x : Message} {l : List Message} :
    x ∈ insertDesc m l ↔ x = m ∨ x ∈ l := by
  induction l with
  | nil => simp [insertDesc]
  | cons y ys ih =>
    by_cases h : y.created_at ≤ m.created_at
    · simp [insertDesc, h]
    · simp [insertDesc, h, ih]
      tauto

theorem pairwise_insertDesc {m : Message} {l : List Message}
    (hl : l.Pairwise (fun a b => b.created_at ≤ a.created_at)) :
    (insertDesc m l).Pairwise (fun a b => b.created_at ≤ a.created_at) := by
  induction l with
  | nil => simp [insertDesc]
  | cons y ys ih =>
    rcases List.pairwise_cons.mp hl with ⟨hy, hys⟩
    by_cases h : y.created_at ≤ m.created_at
    · simp only [insertDesc, if_pos h]
      refine List.pairwise_cons.mpr ⟨?_, hl⟩
      intro z hz
      rcases List.mem_cons.mp hz with hz | hz
      · exact hz ▸ h
      · exact le_trans (hy z hz) h
    · simp only [insertDesc, if_neg h]
      refine List.pairwise_cons.mpr ⟨?_, ih hys⟩
      intro z hz
      rcases mem_insertDesc.mp hz with hz | hz
      · subst hz; omega
      · exact hy z hz

theorem pairwise_sortDesc (l : List Message) :
    (sortDesc l).Pairwise (fun a b => b.created_at ≤ a.created_at) := by
  induction l with
  | nil => simp [sortDesc]
  | cons m ms ih => exact pairwise_insertDesc ih

theorem foldl_append_str (l : List String) (s : String) :
    l.foldl (fun r x => r ++ x) s = s ++ l.foldl (fun r x => r ++ x) "" := by
  induction l generalizing s with
  | nil => simp
  | cons x xs ih =>
    simp only [List.foldl_cons]
    rw [ih (s ++ x), ih ("" ++ x)]
    simp [String.append_assoc]

theorem format_foldl_join (ai_name : String) (l : List Message) (acc : String) :
    l.foldl (fun acc m => acc ++ history_line ai_name m) acc
      = acc ++ String.join (l.map (history_line ai_name)) := by
  induction l generalizing acc with
  | nil => simp [String.join]
  | cons m ms ih =>
    simp only [List.foldl_cons, List.map_cons, String.join, List.foldl_cons]
    rw [ih, foldl_append_str]
    simp [String.join, String.append_assoc]

/-- C8: the pipeline loads at most 10 recent messages for the (room, thread)
pair, fetched most-recent-first (non-increasing `created_at`), and the prompt
history is assembled from the reversal of the fetch order: for a non-empty
fetched list the formatted history is exactly the concatenation of the
per-message lines of the reversed list. -/
theorem C8_history_bounded_and_reversed (db : List Message)
    (room_id thread_id ai_name : String) :
    (get_chat_history db room_id thread_id).length ≤ 10 ∧
    (get_chat_history db room_id thread_id).Pairwise
      (fun a b => b.created_at ≤ a.created_at) ∧
    (get_chat_history db room_id thread_id ≠ [] →
      format_chat_history (get_chat_history db room_id thread_id) ai_name
        = String.join ((get_chat_history db room_id thread_id).reverse.map
            (history_line ai_name))) := by
  refine ⟨?_, ?_, ?_⟩
  · exact List.length_take_le 10 _
  · exact List.Pairwise.sublist (List.take_sublist 10 _) (pairwise_sortDesc _)
  · intro hne
    rw [format_chat_history, if_neg hne]
    exact format_foldl_join ai_name _ ""

/-- A concrete two-row `messages` table used to instantiate C8. -/
def c8db : List Message :=
  [⟨"m1", "r", "t", "hi", 1, 5, none⟩, ⟨"m2", "r", "t", "hello", 2, 7, some "m1"⟩]

theorem C8_witness :
    format_chat_history (get_chat_history c8db "r" "t") "AI"
      = String.join ((get_chat_history c8db "r" "t").reverse.map (history_line "AI")) :=
  (C8_history_bounded_and_reversed c8db "r" "t" "AI").2.2 (by decide)

/-! ## Theorems: session initialization (C6) -/

theorem count_incomplete_eq_zero_iff (st : SessionStore) (room_id thread_id : String) :
    count_incomplete st room_id thread_id = 0 ↔
      ∀ s ∈ st.sessions, ¬ (is_incomplete_for room_id thread_id s = true) := by
  simp [count_incomplete, List.length_eq_zero, List.filter_eq_nil_iff]

theorem incomplete_mem_complete {st : SessionStore} {sid : Nat} {s : StreamingSession}
    (hs : s ∈ (complete_streaming_message st sid).sessions)
    (hinc : s.is_complete = false) :
    s ∈ st.sessions ∧ s.id ≠ sid := by
  simp only [complete_streaming_message, List.mem_map] at hs
  rcases hs with ⟨s₀, hs₀, heq⟩
  by_cases h : s₀.id = sid
  · rw [if_pos h] at heq
    rw [← heq] at hinc
    simp at hinc
  · rw [if_neg h] at heq
    subst heq
    exact ⟨hs₀, h⟩

theorem foldl_complete_count_zero (room_id thread_id : String) :
    ∀ (L : List Nat) (st : SessionStore),
      (∀ s ∈ st.sessions, is_incomplete_for room_id thread_id s = true → s.id ∈ L) →
      count_incomplete (L.foldl complete_streaming_message st) room_id thread_id = 0 := by
  intro L
  induction L with
  | nil =>
    intro st hst
    rw [count_incomplete_eq_zero_iff]
    intro s hs hbad
    exact absurd (hst s hs hbad) (List.not_mem_nil _)
  | cons a L ih =>
    intro st hst
    rw [List.foldl_cons]
    apply ih
    intro s hs hbad
    have hinc : s.is_complete = false := by
      simp only [is_incomplete_for, Bool.and_eq_true, Bool.not_eq_true'] at hbad
      exact hbad.2
    obtain ⟨hmem, hne⟩ := incomplete_mem_complete hs hinc
    have := hst s hmem hbad
    rcases List.mem_cons.mp this with h | h
    · exact absurd h hne
    · exact h

theorem count_incomplete_cleanup (st : SessionStore) (room_id thread_id : String) :
    count_incomplete (cleanup_incomplete_streaming_messages st room_id thread_id)
      room_id thread_id = 0 := by
  apply foldl_complete_count_zero
  intro s hs hbad
  simp only [incomplete_ids, List.mem_map]
  exact ⟨s, List.mem_filter.mpr ⟨hs, hbad⟩, rfl⟩

theorem count_incomplete_init (st : SessionStore)
    (room_id thread_id ai_id user_message_id : String) :
    count_incomplete (init_streaming_message st room_id thread_id ai_id user_message_id).1
      room_id thread_id = 1 := by
  unfold init_streaming_message upsert_streaming_message
  simp only [count_incomplete, List.filter_append]
  rw [List.length_append]
  have h0 := count_incomplete_cleanup st room_id thread_id
  rw [count_incomplete] at h0
  rw [h0]
  simp [is_incomplete_for]

/-- C6: every initialize call is preceded by cleanup of the pair's incomplete
sessions, so after two sequential `initialize_streaming_message` calls for the
same (room, thread) pair, exactly one session with completion flag false
exists for that pair. -/
theorem C6_two_inits_one_incomplete (st : SessionStore)
    (room_id thread_id ai_id user_message_id ai_id2 user_message_id2 : String) :
    count_incomplete
      (init_streaming_message
        (init_streaming_message st room_id thread_id ai_id user_message_id).1
        room_id thread_id ai_id2 user_message_id2).1
      room_id thread_id = 1 :=
  count_incomplete_init _ room_id thread_id ai_id2 user_message_id2

/-! ## Theorems: lock manager mutual exclusion (C1) -/

theorem lm_step_inv {s s' : LMState} (hinv : LMInv s) (hstep : LMStep s s') : LMInv s' := by
  obtain ⟨h1, h2, h3, h4, h5⟩ := hinv
  cases hstep with
  | fast_conflict c k hc hk =>
    refine ⟨?_, ?_, h3, h4, h5⟩
    · intro x k' hx
      dsimp only at hx
      by_cases hxc : x = c
      · rw [if_pos hxc] at hx; exact absurd hx (by simp)
      · rw [if_neg hxc] at hx; exact h1 x k' hx
    · intro x k' hx
      have hp := h2 x k' hx
      dsimp only
      by_cases hxc : x = c
      · subst hxc; rw [hc] at hp; exact absurd hp (by simp)
      · rw [if_neg hxc]; exact hp
  | fast_pass c k hc hk =>
    refine ⟨?_, ?_, h3, h4, h5⟩
    · intro x k' hx
      dsimp only at hx
      by_cases hxc : x = c
      · rw [if_pos hxc] at hx; exact absurd hx (by simp)
      · rw [if_neg hxc] at hx; exact h1 x k' hx
    · intro x k' hx
      have hp := h2 x k' hx
      dsimp only
      by_cases hxc : x = c
      · subst hxc; rw [hc] at hp; exact absurd hp (by simp)
      · rw [if_neg hxc]; exact hp
  | lock_acquire c k hc hn =>
    refine ⟨?_, ?_, ?_, ?_, ?_⟩
    · intro x k' hx
      dsimp only at hx ⊢
      by_cases hxc : x = c
      · rw [if_pos hxc] at hx
        have hk' : k' = k := (CallerPhase.holding.inj hx).symm
        rw [if_pos hk', hxc]
      · rw [if_neg hxc] at hx
        have hh := h1 x k' hx
        by_cases hkk : k' = k
        · subst hkk; rw [hn] at hh; exact absurd hh (by simp)
        · rw [if_neg hkk]; exact hh
    · intro x k' hx
      dsimp only at hx ⊢
      by_cases hkk : k' = k
      · rw [if_pos hkk] at hx
        have hx0 : x = c := (Option.some.inj hx).symm
        rw [if_pos hx0, hkk]
      · rw [if_neg hkk] at hx
        have hp := h2 x k' hx
        by_cases hxc : x = c
        · subst hxc; rw [hc] at hp
          exact absurd hp (by simp)
        · rw [if_neg hxc]; exact hp
    · intro k' x hx
      dsimp only at hx ⊢
      by_cases hkk : k' = k
      · subst hkk; exact List.mem_cons_self _ _
      · rw [if_neg hkk] at hx
        exact List.mem_cons_of_mem _ (h3 k' x hx)
    · intro k' hk'
      dsimp only at hk' ⊢
      by_cases hkk : k' = k
      · rw [if_pos hkk]; simp
      · rw [if_neg hkk]
        rcases List.mem_cons.mp hk' with h | h
        · exact absurd h hkk
        · exact h4 k' h
    · refine List.nodup_cons.mpr ⟨?_, h5⟩
      intro hmem
      exact h4 k hmem hn
  | lock_timeout c k hc =>
    refine ⟨?_, ?_, h3, h4, h5⟩
    · intro x k' hx
      dsimp only at hx
      by_cases hxc : x = c
      · rw [if_pos hxc] at hx; exact absurd hx (by simp)
      · rw [if_neg hxc] at hx; exact h1 x k' hx
    · intro x k' hx
      have hp := h2 x k' hx
      dsimp only
      by_cases hxc : x = c
      · subst hxc; rw [hc] at hp; exact absurd hp (by simp)
      · rw [if_neg hxc]; exact hp
  | lock_release c k hc =>
    have hck : s.holder k = some c := h1 c k hc
    refine ⟨?_, ?_, ?_, ?_, h5.erase k⟩
    · intro x k' hx
      dsimp only at hx ⊢
      by_cases hxc : x = c
      · rw [if_pos hxc] at hx; exact absurd hx (by simp)
      · rw [if_neg hxc] at hx
        have hh := h1 x k' hx
        by_cases hkk : k' = k
        · subst hkk
          rw [hck] at hh
          exact absurd (Option.some.inj hh).symm hxc
        · rw [if_neg hkk]; exact hh
    · intro x k' hx
      dsimp only at hx ⊢
      by_cases hkk : k' = k
      · rw [if_pos hkk] at hx; exact absurd hx (by simp)
      · rw [if_neg hkk] at hx
        have hp := h2 x k' hx
        by_cases hxc : x = c
        · subst hxc
          rw [hc] at hp
          exact absurd (CallerPhase.holding.inj hp).symm hkk
        · rw [if_neg hxc]; exact hp
    · intro k' x hx
      dsimp only at hx ⊢
      by_cases hkk : k' = k
      · rw [if_pos hkk] at hx; exact absurd hx (by simp)
      · rw [if_neg hkk] at hx
        exact h5.mem_erase_iff.mpr ⟨hkk, h3 k' x hx⟩
    · intro k' hk'
      dsimp only at hk' ⊢
      have hmem := h5.mem_erase_iff.mp hk'
      rw [if_neg hmem.1]
      exact h4 k' hmem.2
  | conflict_done c hc =>
    refine ⟨?_, ?_, h3, h4, h5⟩
    · intro x k' hx
      dsimp only at hx
      by_cases hxc : x = c
      · rw [if_pos hxc] at hx; exact absurd hx (by simp)
      · rw [if_neg hxc] at hx; exact h1 x k' hx
    · intro x k' hx
      have hp := h2 x k' hx
      dsimp only
      by_cases hxc : x = c
      · subst hxc; rw [hc] at hp; exact absurd hp (by simp)
      · rw [if_neg hxc]; exact hp

theorem lm_reach_inv {s : LMState} (h : LMReach s) : LMInv s := by
  induction h with
  | init =>
    refine ⟨?_, ?_, ?_, ?_, ?_⟩ <;> simp [lmInit]
  | step _ hstep ih => exact lm_step_inv ih hstep

/-- C1: mutual exclusion of `acquire_lock` (src/services/lock_manager.py:55-111).
In every reachable interleaving of concurrent callers, while caller `c` holds
the lock for a (room_id, thread_id) key: no other caller holds it, the key is
registered in `_active_requests`, no step of the system can make another
caller a holder of the key, and any other caller that starts `acquire_lock`
for the key takes the fast-path ConflictException branch. -/
theorem C1_acquire_mutual_exclusion (s : LMState) (hreach : LMReach s)
    (c : Nat) (k : String) (hc : s.phase c = CallerPhase.holding k) :
    (∀ c', c' ≠ c → s.phase c' ≠ CallerPhase.holding k) ∧
    k ∈ s.active ∧
    (∀ c' s', c' ≠ c → LMStep s s' → s'.phase c' ≠ CallerPhase.holding k) ∧
    (∀ c', c' ≠ c → s.phase c' = CallerPhase.idle →
      LMStep s { s with phase := fun x =>
        if x = c' then CallerPhase.conflicted else s.phase x }) := by
  obtain ⟨h1, h2, h3, h4, h5⟩ := lm_reach_inv hreach
  have hck : s.holder k = some c := h1 c k hc
  have hmem : k ∈ s.active := h3 k c hck
  have hone : ∀ c', c' ≠ c → s.phase c' ≠ CallerPhase.holding k := by
    intro c' hne hold
    have := h1 c' k hold
    rw [hck] at this
    exact hne (Option.some.inj this).symm
  refine ⟨hone, hmem, ?_, ?_⟩
  · intro c' s' hne hstep
    cases hstep with
    | fast_conflict c₀ k₀ h₀ hk₀ =>
      dsimp only
      by_cases hcc : c' = c₀
      · rw [if_pos hcc]; simp
      · rw [if_neg hcc]; exact hone c' hne
    | fast_pass c₀ k₀ h₀ hk₀ =>
      dsimp only
      by_cases hcc : c' = c₀
      · rw [if_pos hcc]; simp
      · rw [if_neg hcc]; exact hone c' hne
    | lock_acquire c₀ k₀ h₀ hn₀ =>
      dsimp only
      by_cases hcc : c' = c₀
      · rw [if_pos hcc]
        intro hkk
        have hk0 : k₀ = k := CallerPhase.holding.inj hkk
        rw [hk0, hck] at hn₀
        exact Option.noConfusion hn₀
      · rw [if_neg hcc]; exact hone c' hne
    | lock_timeout c₀ k₀ h₀ =>
      dsimp only
      by_cases hcc : c' = c₀
      · rw [if_pos hcc]; simp
      · rw [if_neg hcc]; exact hone c' hne
    | lock_release c₀ k₀ h₀ =>
      dsimp only
      by_cases hcc : c' = c₀
      · rw [if_pos hcc]; simp
      · rw [if_neg hcc]; exact hone c' hne
    | conflict_done c₀ h₀ =>
      dsimp only
      by_cases hcc : c' = c₀
      · rw [if_pos hcc]; simp
      · rw [if_neg hcc]; exact hone c' hne
  · intro c' hne hidle
    exact LMStep.fast_conflict s c' k hidle hmem

/-! ## Theorems: TTL expiry reclaims the thread (C3) -/

theorem lookup_drop_lock (tbl : LockTable) (thread_id : String) :
    List.lookup thread_id (drop_lock tbl thread_id) = none := by
  rw [List.lookup_eq_none_iff]
  intro p hp
  rw [drop_lock] at hp
  have := (List.mem_filter.mp hp).2
  simp only [bne_iff_ne, ne_eq] at this
  simp only [bne_iff_ne, ne_eq]
  exact fun e => this e.symm

theorem set_lock_drop (tbl : LockTable) (thread_id : String) (l : ThreadLock) :
    set_lock (drop_lock tbl thread_id) thread_id l = set_lock tbl thread_id l := by
  simp [set_lock, drop_lock, List.filter_filter]

/-- C3: for every thread lock whose TTL has elapsed, the next
`acquire_or_transition` attempt treats the lock as absent — it returns exactly
what it would on a table with no lock row for the thread — and succeeds in
creating a new lock for the new holder, so a crashed or stalled holder can
never cause a permanent lockout of the thread. -/
theorem C3_ttl_expiry_reclaims (tbl : LockTable) (now : Nat)
    (thread_id holder_id : String) (kind : LockKind) (ttl : Nat) (ua : Bool)
    (l : ThreadLock) (hlook : List.lookup thread_id tbl = some l)
    (hexp : l.expiry ≤ now) :
    acquire_or_transition tbl now thread_id holder_id kind ttl ua
      = some (set_lock tbl thread_id ⟨holder_id, kind, now, ttl⟩) ∧
    acquire_or_transition tbl now thread_id holder_id kind ttl ua
      = acquire_or_transition (drop_lock tbl thread_id) now thread_id holder_id kind ttl ua ∧
    List.lookup thread_id (set_lock tbl thread_id ⟨holder_id, kind, now, ttl⟩)
      = some ⟨holder_id, kind, now, ttl⟩ := by
  have h1 : acquire_or_transition tbl now thread_id holder_id kind ttl ua
      = some (set_lock tbl thread_id ⟨holder_id, kind, now, ttl⟩) := by
    rw [acquire_or_transition, hlook]
    simp [hexp]
  refine ⟨h1, ?_, ?_⟩
  · rw [h1, acquire_or_transition, lookup_drop_lock, set_lock_drop]
  · simp [set_lock, List.lookup]

/-- A one-row lock table whose single lock (thread "T", holder "u1",
acquired at 0 with TTL 30) has expired by instant 31. -/
def c3tbl : LockTable :=
  [("T", ⟨"u1", LockKind.user_message, 0, 30⟩)]

theorem C3_witness :
    acquire_or_transition c3tbl 31 "T" "agent1" LockKind.ai_streaming 60 false
      = some (set_lock c3tbl "T" ⟨"agent1", LockKind.ai_streaming, 31, 60⟩) ∧
    acquire_or_transition c3tbl 31 "T" "agent1" LockKind.ai_streaming 60 false
      = acquire_or_transition (drop_lock c3tbl "T") 31 "T" "agent1"
          LockKind.ai_streaming 60 false ∧
    List.lookup "T" (set_lock c3tbl "T" ⟨"agent1", LockKind.ai_streaming, 31, 60⟩)
      = some ⟨"agent1", LockKind.ai_streaming, 31, 60⟩ :=
  C3_ttl_expiry_reclaims c3tbl 31 "T" "agent1" LockKind.ai_streaming 60 false
    ⟨"u1", LockKind.user_message, 0, 30⟩ (by decide) (by decide)

theorem lmS2_reach : LMReach lmS2 :=
  LMReach.step
    (LMReach.step LMReach.init
      (LMStep.fast_pass lmInit 0 "a:b" rfl (List.not_mem_nil _)))
    (LMStep.lock_acquire lmS1 0 "a:b" rfl rfl)

theorem C1_witness :
    "a:b" ∈ lmS2.active ∧
    lmS2.phase 1 ≠ CallerPhase.holding "a:b" ∧
    LMStep lmS2 { lmS2 with phase := fun x =>
      if x = 1 then CallerPhase.conflicted else lmS2.phase x } :=
  ⟨(C1_acquire_mutual_exclusion lmS2 lmS2_reach 0 "a:b" rfl).2.1,
   (C1_acquire_mutual_exclusion lmS2 lmS2_reach 0 "a:b" rfl).1 1 (by decide),
   (C1_acquire_mutual_exclusion lmS2 lmS2_reach 0 "a:b" rfl).2.2.2 1 (by decide) rfl⟩

/-! ## Session-store helper lemmas shared by the pipeline theorems -/

theorem mem_upsert_some {st : SessionStore} {sid : Nat}
    {room_id thread_id ai_id um content : String} {cmp : Bool} {s : StreamingSession}
    (hs : s ∈ (upsert_streaming_message st (some sid) room_id thread_id ai_id um
        content cmp).1.sessions) :
    ∃ s0 ∈ st.sessions,
      s = if s0.id = sid then { s0 with content := content, is_complete := cmp } else s0 := by
  simp only [upsert_streaming_message, List.mem_map] at hs
  rcases hs with ⟨s0, hs0, heq⟩
  exact ⟨s0, hs0, heq.symm⟩

theorem upsert_some_id_props {st : SessionStore} {sid : Nat}
    {room_id thread_id ai_id um content : String} {s : StreamingSession}
    (hs : s ∈ (upsert_streaming_message st (some sid) room_id thread_id ai_id um
        content true).1.sessions)
    (hid : s.id = sid) :
    s.content = content ∧ s.is_complete = true := by
  obtain ⟨s0, hs0, heq⟩ := mem_upsert_some hs
  by_cases h : s0.id = sid
  · rw [if_pos h] at heq
    subst heq
    exact ⟨rfl, rfl⟩
  · rw [if_neg h] at heq
    subst heq
    exact absurd hid h

theorem complete_id_props {st : SessionStore} {sid : Nat} {s : StreamingSession}
    (hs : s ∈ (complete_streaming_message st sid).sessions) (hid : s.id = sid) :
    s.is_complete = true := by
  simp only [complete_streaming_message, List.mem_map] at hs
  rcases hs with ⟨s0, hs0, heq⟩
  by_cases h : s0.id = sid
  · rw [if_pos h] at heq
    subst heq
    rfl
  · rw [if_neg h] at heq
    subst heq
    exact absurd hid h

/-! ## Theorems: finalize before release, release despite hand-off failure (C5) -/

/-- C5: on completion of a QA pipeline run the session is finalized
(qa_orchestrator.py:500) strictly before the thread lock held for `ai_id` is
released (line 505) — indices 0 and 1 of the completion-tail trace — and a
release of that lock is in the trace in every case, in particular when the
downstream hand-off logic subsequently fails (the outer except also releases
again, line 563). -/
theorem C5_finalize_before_release (st : SessionStore) (sid : Nat)
    (room_id thread_id ai_id user_message_id : String) (is_mod : Bool)
    (selected : Option String) (env : DBEnv) (handoff_err : Option String) :
    (qa_completion_tail st sid room_id thread_id ai_id user_message_id
        is_mod selected env handoff_err).trace[0]? = some (QAEvent.finalize_ev sid) ∧
    (qa_completion_tail st sid room_id thread_id ai_id user_message_id
        is_mod selected env handoff_err).trace[1]?
      = some (QAEvent.release_ev thread_id ai_id) ∧
    QAEvent.release_ev thread_id ai_id ∈
      (qa_completion_tail st sid room_id thread_id ai_id user_message_id
        is_mod selected env handoff_err).trace := by
  cases handoff_err with
  | some m => simp [qa_completion_tail]
  | none =>
    cases selected with
    | none => simp [qa_completion_tail]
    | some x =>
      by_cases hc : is_mod = true ∧ x ≠ ""
      · cases hai : qa_get_ai_info env x with
        | some info => simp [qa_completion_tail, hc, hai]
        | none => simp [qa_completion_tail, hc, hai]
      · simp [qa_completion_tail, hc]

/-! ## Theorems: hand-off chaining (C2, C7) -/

theorem chat_next_pass_eq_none_of_ne (env : DBEnv) (room_id a resp : String)
    (ha : a ≠ MODERATOR_AI_ID) : chat_next_pass env room_id a resp = none := by
  rw [chat_next_pass, if_neg]
  rintro ⟨h1, _⟩
  exact ha h1

theorem chat_next_pass_some_inv {env : DBEnv} {room_id a resp t : String}
    (h : chat_next_pass env room_id a resp = some t) :
    a = MODERATOR_AI_ID ∧ resp ≠ "" := by
  by_cases hc : a = MODERATOR_AI_ID ∧ resp ≠ ""
  · exact hc
  · rw [chat_next_pass, if_neg hc] at h
    exact absurd h (by simp)

theorem qa_tail_spawned_inv {st : SessionStore} {sid : Nat}
    {room_id thread_id ai_id um : String} {is_mod : Bool}
    {selected : Option String} {env : DBEnv} {hoe : Option String}
    {x : String} {n : Nat}
    (h : (qa_completion_tail st sid room_id thread_id ai_id um is_mod selected env
        hoe).spawned = some (x, n)) :
    is_mod = true ∧ x ≠ "" ∧ selected = some x := by
  cases hoe with
  | some m => simp [qa_completion_tail] at h
  | none =>
    cases selected with
    | none => simp [qa_completion_tail] at h
    | some y =>
      by_cases hc : is_mod = true ∧ y ≠ ""
      · simp only [qa_completion_tail] at h
        rw [if_pos hc] at h
        cases hai : qa_get_ai_info env y with
        | some info =>
          rw [hai] at h
          dsimp only at h
          have hinj := Option.some.inj h
          have hxy : y = x := congrArg Prod.fst hinj
          refine ⟨hc.1, ?_, ?_⟩
          · rw [← hxy]; exact hc.2
          · rw [hxy]
        | none =>
          rw [hai] at h
          dsimp only at h
          exact absurd h (by simp)
      · simp only [qa_completion_tail] at h
        rw [if_neg hc] at h
        dsimp only at h
        exact absurd h (by simp)

theorem qa_run_normal_spawned_none (st : SessionStore) (sid : Nat)
    (room_id thread_id ai_id um : String) (env : DBEnv)
    (ok : Bool) (events : List StreamEvent) (err : Option String)
    (hoe : Option String) :
    (qa_run_normal st sid room_id thread_id ai_id um env ok events err hoe).spawned
      = none := by
  cases hoe with
  | some m => simp [qa_run_normal, qa_completion_tail]
  | none => simp [qa_run_normal, qa_completion_tail]

/-- C2 counterexample: in room "r" of `c2env` the moderator's own pass
resolves a hand-off to the moderator itself (`_get_ai_id_by_name` searches
all active room AIs, the moderator included), and the chained pass for that
target, completing with the same directive text, spawns a further chained
pass — so a hand-off-triggered pass IS checked again and the delegation chain
exceeds one hop. -/
theorem C2_counterexample :
    chat_pass_target c2env "r" (fun _ => c2resp) MODERATOR_AI_ID
      = some MODERATOR_AI_ID ∧
    (chat_pass_target c2env "r" (fun _ => c2resp) MODERATOR_AI_ID).bind
        (chat_pass_target c2env "r" (fun _ => c2resp))
      = some MODERATOR_AI_ID :=
  ⟨by decide, by decide⟩

/-- C2 amended: a chained pass spawns a further pass only when its target is
itself the moderator. In the chat pipeline, every pass by an agent other than
`MODERATOR_AI_ID` spawns nothing, and a spawned hand-off implies the
completed agent was the moderator; in the QA pipeline, a pass whose agent's
`is_moderator` flag is false runs the normal branch, which never spawns. -/
theorem C2_amended_one_hop :
    (∀ (env : DBEnv) (room_id a resp : String), a ≠ MODERATOR_AI_ID →
        chat_next_pass env room_id a resp = none) ∧
    (∀ (env : DBEnv) (room_id a resp t : String),
        chat_next_pass env room_id a resp = some t → a = MODERATOR_AI_ID) ∧
    (∀ (st : SessionStore) (sid : Nat) (room_id thread_id x um : String)
        (env : DBEnv) (sync_result : Option String)
        (parsed : Option (String × Option String)) (ok : Bool)
        (events : List StreamEvent) (err hoe : Option String) (info : AIRow),
        qa_get_ai_info env x = some info → info.is_moderator = false →
        qa_run st sid room_id thread_id x um env sync_result parsed ok events err hoe
          = some (qa_run_normal st sid room_id thread_id x um env ok events err hoe) ∧
        (qa_run_normal st sid room_id thread_id x um env ok events err hoe).spawned
          = none) := by
  refine ⟨chat_next_pass_eq_none_of_ne,
    fun env room_id a resp t h => (chat_next_pass_some_inv h).1, ?_⟩
  intro st sid room_id thread_id x um env sync_result parsed ok events err hoe info
    hinfo hmod
  constructor
  · rw [qa_run, hinfo]
    simp [hmod]
  · exact qa_run_normal_spawned_none st sid room_id thread_id x um env ok events err hoe

theorem C2_amended_witness :
    ("X" : String) ≠ MODERATOR_AI_ID ∧
    chat_next_pass c2env "r" "X" c2resp = none ∧
    qa_get_ai_info cNenv "X" = some ⟨"X", "Specialist", "", "", true, false⟩ ∧
    (qa_run_normal c4st 0 "r" "t" "X" "u" cNenv true [] none none).spawned = none :=
  ⟨by decide,
   C2_amended_one_hop.1 c2env "r" "X" c2resp (by decide),
   by decide,
   (C2_amended_one_hop.2.2 c4st 0 "r" "t" "X" "u" cNenv none none true [] none none
     ⟨"X", "Specialist", "", "", true, false⟩ (by decide) rfl).2⟩

/-- C7 counterexample: in the QA pipeline a moderator pass whose parsed
directive is `message = ""` with `ai_id = "X"` is finalized with EMPTY
content, yet hand-off chaining is attempted and a chained pass for "X" is
spawned — the hand-off check at qa_orchestrator.py:511 tests the selected id,
not the finalized content. -/
theorem C7_counterexample :
    (qa_run_moderator c7st 0 "r" "t" "m" "u" c7env (some "resp")
        (some ("", some "X")) none).spawned = some ("X", 1) ∧
    (qa_run_moderator c7st 0 "r" "t" "m" "u" c7env (some "resp")
        (some ("", some "X")) none).store.sessions
      = [⟨0, "r", "t", "m", "u", "", true⟩, ⟨1, "r", "t", "X", "u", "", false⟩] :=
  ⟨by decide, by decide⟩

/-- C7 amended: in the chat pipeline the hand-off fires only when the
completed agent is the moderator and its finalized content is non-empty; in
the QA pipeline a non-moderator pass never chains, and a moderator pass
chains exactly when its parsed directive carries a truthy target id —
regardless of whether the finalized message content is empty. -/
theorem C7_amended_handoff_guard :
    (∀ (env : DBEnv) (room_id a resp t : String),
        chat_next_pass env room_id a resp = some t →
        a = MODERATOR_AI_ID ∧ resp ≠ "") ∧
    (∀ (st : SessionStore) (sid : Nat) (room_id thread_id ai_id um : String)
        (env : DBEnv) (ok : Bool) (events : List StreamEvent) (err hoe : Option String),
        (qa_run_normal st sid room_id thread_id ai_id um env ok events err hoe).spawned
          = none) ∧
    (∀ (st : SessionStore) (sid : Nat) (room_id thread_id ai_id um : String)
        (env : DBEnv) (sync_result : Option String)
        (parsed : Option (String × Option String)) (hoe : Option String)
        (x : String) (n : Nat),
        (qa_run_moderator st sid room_id thread_id ai_id um env sync_result parsed
            hoe).spawned = some (x, n) →
        x ≠ "" ∧ ∃ msg, parsed = some (msg, some x)) := by
  refine ⟨fun env room_id a resp t h => chat_next_pass_some_inv h,
    qa_run_normal_spawned_none, ?_⟩
  intro st sid room_id thread_id ai_id um env sync_result parsed hoe x n h
  cases parsed with
  | none =>
    simp only [qa_run_moderator] at h
    have h3 := qa_tail_spawned_inv h
    exact absurd h3.2.2 (by simp)
  | some p =>
    obtain ⟨msg, sel⟩ := p
    simp only [qa_run_moderator] at h
    have h3 := (qa_tail_spawned_inv h).2
    refine ⟨h3.1, msg, ?_⟩
    rw [← h3.2]

theorem C7_amended_witness :
    chat_next_pass c2env "r" MODERATOR_AI_ID c2resp = some MODERATOR_AI_ID ∧
    (MODERATOR_AI_ID = MODERATOR_AI_ID ∧ c2resp ≠ "") ∧
    (qa_run_moderator c7st 0 "r" "t" "m" "u" c7env (some "resp")
        (some ("Hello", some "X")) none).spawned = some ("X", 1) ∧
    (("X" : String) ≠ "" ∧ ∃ msg,
        (some (("Hello" : String), some ("X" : String))
          : Option (String × Option String)) = some (msg, some "X")) :=
  ⟨by decide,
   C7_amended_handoff_guard.1 c2env "r" MODERATOR_AI_ID c2resp MODERATOR_AI_ID (by decide),
   by decide,
   C7_amended_handoff_guard.2.2 c7st 0 "r" "t" "m" "u" c7env (some "resp")
     (some ("Hello", some "X")) none "X" 1 (by decide)⟩

/-! ## Theorems: error handling of a failing backend call (C4) -/

/-- C4 counterexample: a QA streaming run whose backend raises mid-generation
(after the chunk "Hello") finalizes the session with the PARTIAL accumulated
content "Hello", not with the error text: `_call_professional_stream` catches
the exception internally and returns "Error: boom" without writing it. -/
theorem C4_counterexample :
    (qa_run_normal c4st 0 "r" "t" "a" "u" c4env true [StreamEvent.answering "Hello"]
        (some "boom") none).store.sessions
      = [⟨0, "r", "t", "a", "u", "Hello", true⟩] ∧
    ("Hello" : String) ≠ "Error: boom" :=
  ⟨by decide, by decide⟩

/-- C4 amended: on a mid-generation backend failure every pipeline run still
finalizes the session (completion flag true), and the chat pipeline finalizes
it with the error text as content; but in the QA streaming pipeline the
exception is swallowed inside `_call_professional_stream` — the error text is
only RETURNED, the store is exactly what the successful prefix produced, and
the session is finalized with the partial accumulated content. -/
theorem C4_amended_error_finalization :
    (∀ (st : SessionStore) (sid : Nat) (room_id thread_id ai_id um : String)
        (events : List StreamEvent) (m : String),
        (call_professional_stream st sid room_id thread_id ai_id um true events
            (some m)).2 = "Error: " ++ m ∧
        (call_professional_stream st sid room_id thread_id ai_id um true events
            (some m)).1
          = (call_professional_stream st sid room_id thread_id ai_id um true events
              none).1) ∧
    (∀ (st : SessionStore) (sid : Nat) (room_id thread_id ai_id um : String)
        (env : DBEnv) (ok : Bool) (events : List StreamEvent) (err hoe : Option String)
        (s : StreamingSession),
        s ∈ (qa_run_normal st sid room_id thread_id ai_id um env ok events err
            hoe).store.sessions →
        s.id = sid → s.is_complete = true) ∧
    (∀ (st : SessionStore) (sid : Nat) (room_id thread_id ai_id um : String)
        (env : DBEnv) (chunks : List String) (m : String) (s : StreamingSession),
        s ∈ (chat_process_run st sid room_id thread_id ai_id um env chunks
            (some m)).1.sessions →
        s.id = sid → s.content = "Error: " ++ m ∧ s.is_complete = true) := by
  refine ⟨?_, ?_, ?_⟩
  · intro st sid room_id thread_id ai_id um events m
    simp [call_professional_stream]
  · intro st sid room_id thread_id ai_id um env ok events err hoe s hs hid
    rw [qa_run_normal] at hs
    cases hoe with
    | some m =>
      simp only [qa_completion_tail] at hs
      exact (upsert_some_id_props hs hid).2
    | none =>
      simp only [qa_completion_tail] at hs
      exact complete_id_props hs hid
  · intro st sid room_id thread_id ai_id um env chunks m s hs hid
    simp only [chat_process_run] at hs
    exact upsert_some_id_props hs hid

theorem C4_witness :
    ((⟨0, "r", "t", "a", "u", "Hello", true⟩ : StreamingSession) ∈
        (qa_run_normal c4st 0 "r" "t" "a" "u" c4env true [StreamEvent.answering "Hello"]
          (some "boom") none).store.sessions) ∧
    (⟨0, "r", "t", "a", "u", "Hello", true⟩ : StreamingSession).is_complete = true ∧
    ((⟨0, "r", "t", "a", "u", "Error: oops", true⟩ : StreamingSession) ∈
        (chat_process_run c4st 0 "r" "t" "a" "u" c4env ["Hi"] (some "oops")).1.sessions) ∧
    (⟨0, "r", "t", "a", "u", "Error: oops", true⟩ : StreamingSession).content
      = "Error: " ++ "oops" :=
  ⟨by decide,
   C4_amended_error_finalization.2.1 c4st 0 "r" "t" "a" "u" c4env true
     [StreamEvent.answering "Hello"] (some "boom") none
     ⟨0, "r", "t", "a", "u", "Hello", true⟩ (by decide) rfl,
   by decide,
   (C4_amended_error_finalization.2.2 c4st 0 "r" "t" "a" "u" c4env ["Hi"] "oops"
     ⟨0, "r", "t", "a", "u", "Error: oops", true⟩ (by decide) rfl).1⟩

/-! ## Theorems: handler lock release before background reacquisition (C10) -/

/-- C10: when the chat handler admits a request (key not active), the
combined trace is exactly handler-acquire, handler-release (the `async with`
exit), background start, then the background task's own lock events — the
handler's release precedes the background reacquisition. If at that later
instant the key is held again, the background acquire raises
ConflictException and the already-initialized session is finalized with
content "Error: Processing was interrupted due to lock conflict" instead of
being processed. -/
theorem C10_release_then_background (active0 : List String) (st : SessionStore)
    (room_id thread_id ai_id user_message_id : String) (env : DBEnv)
    (bg_active : List String) (chunks : List String) (err : Option String)
    (hfree : get_lock_key room_id thread_id ∉ active0) :
    ∃ store sid bgtr,
      chat_stream_flow active0 st room_id thread_id ai_id user_message_id env
          bg_active chunks err
        = some (store, sid,
            [ChatEvent.acquire_ev (get_lock_key room_id thread_id),
             ChatEvent.release_lock_ev (get_lock_key room_id thread_id),
             ChatEvent.bg_start_ev] ++ bgtr) ∧
      (get_lock_key room_id thread_id ∈ bg_active →
        bgtr = [ChatEvent.conflict_ev (get_lock_key room_id thread_id)] ∧
        ∀ s ∈ store.sessions, s.id = sid →
          s.content = "Error: Processing was interrupted due to lock conflict" ∧
          s.is_complete = true) := by
  refine ⟨(process_with_lock_protection bg_active
      (init_streaming_message st room_id thread_id ai_id user_message_id).1
      room_id thread_id ai_id user_message_id
      (init_streaming_message st room_id thread_id ai_id user_message_id).2
      env chunks err).1,
    (init_streaming_message st room_id thread_id ai_id user_message_id).2,
    (process_with_lock_protection bg_active
      (init_streaming_message st room_id thread_id ai_id user_message_id).1
      room_id thread_id ai_id user_message_id
      (init_streaming_message st room_id thread_id ai_id user_message_id).2
      env chunks err).2, ?_, ?_⟩
  · rw [chat_stream_flow, if_neg hfree]
  · intro hin
    constructor
    · simp only [process_with_lock_protection, if_pos hin]
    · intro s hs hid
      simp only [process_with_lock_protection, if_pos hin] at hs
      exact upsert_some_id_props hs hid

theorem C10_witness :
    ∃ store sid bgtr,
      chat_stream_flow [] { sessions := [], next_id := 0 } "r" "t" "a" "u" c4env
          [get_lock_key "r" "t"] [] none
        = some (store, sid,
            [ChatEvent.acquire_ev (get_lock_key "r" "t"),
             ChatEvent.release_lock_ev (get_lock_key "r" "t"),
             ChatEvent.bg_start_ev] ++ bgtr) ∧
      (get_lock_key "r" "t" ∈ [get_lock_key "r" "t"] →
        bgtr = [ChatEvent.conflict_ev (get_lock_key "r" "t")] ∧
        ∀ s ∈ store.sessions, s.id = sid →
          s.content = "Error: Processing was interrupted due to lock conflict" ∧
          s.is_complete = true) :=
  C10_release_then_background [] { sessions := [], next_id := 0 } "r" "t" "a" "u"
    c4env [get_lock_key "r" "t"] [] none (by decide)

end Panello
